import Mathlib

/-!
Shallow embedding of `src/main.rs` (willothy/game-of-life-rs): the Game of
Life grid (`GameOfLife` in the source, `Grid` here), its neighbor counting
and stepping rule, the block-sampling loop of the braille renderer, and
mouse-paint handler of the control loop.

Machine integers: the source uses `usize` for all coordinates and sizes.
Every arithmetic operation performed by the code on them (`+`, `*`, `/`,
`%`, `saturating_sub`, `saturating_div`, `min`) stays far below 2^64 for
any terminal-sized grid and never relies on wrapping, so they are modelled
as `Nat` (note `Nat` subtraction is truncated, which is exactly the Rust
`saturating_sub`). Vec indexing panics out of bounds; the fallible
accessors are modelled with `Option`, the total ones are used only under
in-bounds hypotheses where both agree.

Randomness: `rand::thread_rng().gen_bool(0.7)` draws are modelled as an
explicit stream `r : Nat → Bool` of draw results, consumed in the order
the loops in `init` perform them (row-major, so the draw for cell `(x, y)`
is draw number `x + y * width`).
-/

/-- The `GameOfLife` struct: `size: (usize, usize)` and `grid: Vec<bool>`,
row-major with flat index `x + y * size.0`. -/
structure Grid where
  size : Nat × Nat
  cells : List Bool
deriving DecidableEq

/-- Width, the Rust `size.0`. -/
def Grid.w (g : Grid) : Nat := g.size.1

/-- Height, the Rust `size.1`. -/
def Grid.h (g : Grid) : Nat := g.size.2

/-- The documented representation invariant: the flat array has exactly
`width * height` cells. -/
def Grid.wf (g : Grid) : Prop := g.cells.length = g.w * g.h

instance (g : Grid) : Decidable g.wf := by unfold Grid.wf; infer_instance

/-- `GameOfLife::get`, fallible form: `self.grid[x + y * self.size.0]`,
`none` exactly when the Vec index would panic. -/
def Grid.getc (g : Grid) (x y : Nat) : Option Bool :=
  g.cells[x + y * g.w]?

/-- `GameOfLife::get`, total form used under in-bounds hypotheses
(agrees with `getc` whenever `getc` succeeds). -/
def Grid.get (g : Grid) (x y : Nat) : Bool :=
  (g.cells[x + y * g.w]?).getD false

/-- `GameOfLife::set`, total form: `self.grid[x + y * self.size.0] = value`
(out of bounds, `List.set` is the identity where Rust would panic; the
fallible `setc` captures the panic condition). -/
def Grid.set (g : Grid) (x y : Nat) (v : Bool) : Grid :=
  ⟨g.size, g.cells.set (x + y * g.w) v⟩

/-- `GameOfLife::set`, fallible form: `none` exactly when the Vec index
`x + y * size.0` is out of range of the flat array, which is the one and
only bound the source checks. -/
def Grid.setc (g : Grid) (x y : Nat) (v : Bool) : Option Grid :=
  if x + y * g.w < g.cells.length then some (g.set x y v) else none

/-- The Rust inclusive range `a..=b` as the list `[a, a+1, ..., b]`
(empty when `b < a`). -/
def rangeIncl (a b : Nat) : List Nat :=
  (List.range (b + 1 - a)).map (a + ·)

/-- `GameOfLife::count_neighbors`: the nested loops
`for i in x.saturating_sub(1)..=(x+1).min(size.0-1)` /
`for j in y.saturating_sub(1)..=(y+1).min(size.1-1)`, skipping the
center and incrementing the count on each alive cell. -/
def Grid.count_neighbors (g : Grid) (x y : Nat) : Nat :=
  (rangeIncl (x - 1) (min (x + 1) (g.w - 1))).foldl (fun count i =>
    (rangeIncl (y - 1) (min (y + 1) (g.h - 1))).foldl (fun count j =>
      if i = x ∧ j = y then count
      else if g.get i j then count + 1 else count) count) 0

/-- The `match (cell, neighbors)` in `GameOfLife::step`, arm for arm. -/
def lifeRule (cell : Bool) (neighbors : Nat) : Bool :=
  match cell, neighbors with
  | true, 2 => true
  | true, 3 => true
  | true, _ => false
  | false, 3 => true
  | false, _ => false

/-- One row of the write loops shared by `step` and `init`: for
`x in 0..w`, write `f x` at flat index `x + off`. -/
def writeRow (w off : Nat) (f : Nat → Bool) (l : List Bool) : List Bool :=
  (List.range w).foldl (fun acc x => acc.set (x + off) (f x)) l

/-- The nested write loops of `step` and `init`: for `y in 0..h`,
`x in 0..w`, write `v x y` at flat index `x + y * w` into `l`. -/
def writeGrid (w h : Nat) (v : Nat → Nat → Bool) (l : List Bool) : List Bool :=
  (List.range h).foldl (fun acc y => writeRow w (y * w) (fun x => v x y) acc) l

/-- `GameOfLife::step`: clone the grid into `next`, write
`lifeRule (get x y) (count_neighbors x y)` — both read from the old
grid — at `next[x + y * size.0]` for every cell, then swap `next` in. -/
def Grid.step (g : Grid) : Grid :=
  ⟨g.size, writeGrid g.w g.h
    (fun x y => lifeRule (g.get x y) (g.count_neighbors x y)) g.cells⟩

/-- `GameOfLife::init`: for `y in 0..h`, `x in 0..w`, set cell `(x, y)` to
the next `rng.gen_bool(0.7)` draw; draw number `x + y * w` in the order
the loops run. -/
def Grid.init (g : Grid) (r : Nat → Bool) : Grid :=
  ⟨g.size, writeGrid g.w g.h (fun x y => r (x + y * g.w)) g.cells⟩

/-- The struct literal inside `GameOfLife::new`, before `init` runs:
`grid: vec![false; size.0 * size.1]`. -/
def Grid.alloc (size : Nat × Nat) : Grid :=
  ⟨size, List.replicate (size.1 * size.2) false⟩

/-- `GameOfLife::new`: allocate the zeroed grid, then `init` it from the
random draw stream `r`. -/
def Grid.new (size : Nat × Nat) (r : Nat → Bool) : Grid :=
  (Grid.alloc size).init r

/-- The mouse-paint handler in `BrailleRenderer::run`: on a left-button
press at terminal cell `(x, y)`, `col = x*2`, `row = y*3`, and
`for y in 0..3 { for x in 0..2 { game.set(col + x, row + y, true) } }`. -/
def Grid.paint (g : Grid) (x y : Nat) : Grid :=
  (List.range 3).foldl (fun g dy =>
    (List.range 2).foldl (fun g dx =>
      g.set (x * 2 + dx) (y * 3 + dy) true) g) g

/-- The `groups` loop in `BrailleRenderer::render`: starting from
all-`false` 6-element blocks, for `y in 0..h`, `x in 0..w` write
`get x y` into `groups[y / 3][x / 2]` at element `(y % 3) + (x % 2)`
(`saturating_div` on `usize` is plain division). The nested Vec of
6-arrays is modelled as a function from (block row, block column,
element index). -/
def renderGroups (g : Grid) : Nat → Nat → Nat → Bool :=
  (List.range g.h).foldl (fun groups y =>
    (List.range g.w).foldl (fun groups x =>
      fun br bc k =>
        if br = y / 3 ∧ bc = x / 2 ∧ k = y % 3 + x % 2 then g.get x y
        else groups br bc k) groups)
    (fun _ _ _ => false)

/-- Modelled from the spec: the 8-dimensional `BRAILLE` table of the
`braille` crate is not among the sources of this repository; per the
Glyph Packer section of the spec it is the fixed table of the 256 Unicode braille
patterns, indexed by the dots of the 2×4 braille cell row by row
(dots 1,4,2,5,3,6,7,8), yielding the code point `0x2800` plus the
standard dot bits. -/
def braille (d1 d4 d2 d5 d3 d6 d7 d8 : Bool) : Nat :=
  0x2800 + (cond d1 1 0) + (cond d2 2 0) + (cond d3 4 0) +
    (cond d4 8 0) + (cond d5 16 0) + (cond d6 32 0) +
    (cond d7 64 0) + (cond d8 128 0)

/-- One row of the `chars` matrix in `BrailleRenderer::render`: the block
at `(row y, column x)` is looked up as
`BRAILLE[cell[0]][cell[3]][cell[1]][cell[4]][cell[2]][cell[5]][0][0]`. -/
def rowChars (g : Grid) (y : Nat) : List Nat :=
  (List.range (g.w / 2)).map (fun x =>
    let cell := renderGroups g y x
    braille (cell 0) (cell 3) (cell 1) (cell 4) (cell 2) (cell 5)
      false false)

/-- The operations `BrailleRenderer::render` performs on the
`BufferedTerminal` surface, in order. -/
inductive SOp where
  | resize (w h : Nat)
  | cursorAbs (x y : Nat)
  | text (runs : List Nat)
  | flush
deriving DecidableEq

/-- The surface-operation trace of one `BrailleRenderer::render` call on a
surface whose current dimensions are `dims`: the conditional
`self.screen.resize(game.size.0, game.size.1)` guarded by
`dimensions() != (size.0 / 2, size.1 / 3)`, the absolute cursor move to
the origin, one text run per block row, and the final
`self.screen.flush().ok()`. -/
def renderOps (dims : Nat × Nat) (g : Grid) : List SOp :=
  (if dims ≠ (g.w / 2, g.h / 3) then [SOp.resize g.w g.h] else []) ++
  [SOp.cursorAbs 0 0] ++
  (List.range (g.h / 3)).map (fun y => SOp.text (rowChars g y)) ++
  [SOp.flush]

/-- Surface character dimensions after a trace of operations
(`BufferedTerminal::resize(w, h)` sets the dimensions to `(w, h)`;
nothing else changes them). -/
def dimsAfter (d : Nat × Nat) (ops : List SOp) : Nat × Nat :=
  ops.foldl (fun d op =>
    match op with
    | SOp.resize w h => (w, h)
    | _ => d) d

/-- The spec-side neighbor count for the refinement claim about
`count_neighbors`: the number of coordinates `(i, j)` that are in
bounds, at Chebyshev distance at most 1 from `(x, y)`, different from
`(x, y)`, and alive. -/
def mooreCount (g : Grid) (x y : Nat) : Nat :=
  (((Finset.range g.w) ×ˢ (Finset.range g.h)).filter
    (fun p => p ≠ (x, y) ∧ ((p.1 : Int) - (x : Int)).natAbs ≤ 1 ∧
      ((p.2 : Int) - (y : Int)).natAbs ≤ 1 ∧ g.get p.1 p.2 = true)).card

/-- A 3×3 vertical blinker used as concrete witness input. -/
def blinker : Grid :=
  ⟨(3, 3), [false, true, false, false, true, false, false, true, false]⟩

/-- A 2×3 grid whose only alive cell is `(1, 0)`, the failing input of the
block-sampling claim. -/
def oneAlive : Grid :=
  ⟨(2, 3), [false, true, false, false, false, false]⟩

/-- A dead 4×6 grid, the failing input of the resize claim. -/
def dead46 : Grid :=
  ⟨(4, 6), List.replicate 24 false⟩

example : blinker.wf := by decide
example : blinker.count_neighbors 1 1 = 2 := by decide
example : (blinker.step).get 0 1 = true := by decide
example : (blinker.step).get 1 0 = false := by decide
example : mooreCount blinker 1 1 = 2 := by decide
example : renderGroups oneAlive 0 0 3 = false := by decide
example : oneAlive.get 1 0 = true := by decide
example : dimsAfter (1, 1) (renderOps (1, 1) dead46) = (4, 6) := by decide

/-! ### Write-loop lemmas -/

theorem writeRow_succ (n off : Nat) (f : Nat → Bool) (l : List Bool) :
    writeRow (n + 1) off f l = (writeRow n off f l).set (n + off) (f n) := by
  unfold writeRow
  rw [List.range_succ, List.foldl_append]
  rfl

theorem writeRow_length (w off : Nat) (f : Nat → Bool) (l : List Bool) :
    (writeRow w off f l).length = l.length := by
  induction w with
  | zero => rfl
  | succ n ih => rw [writeRow_succ, List.length_set, ih]

theorem writeRow_get_out (w off : Nat) (f : Nat → Bool) (l : List Bool) :
    ∀ i, i < off ∨ off + w ≤ i → (writeRow w off f l)[i]? = l[i]? := by
  induction w with
  | zero => intro i _; rfl
  | succ n ih =>
    intro i h
    rw [writeRow_succ, List.getElem?_set_ne (by omega), ih i (by omega)]

theorem writeRow_get_in (w off : Nat) (f : Nat → Bool) (l : List Bool) :
    ∀ x, x < w → off + w ≤ l.length →
      (writeRow w off f l)[x + off]? = some (f x) := by
  induction w with
  | zero => intro x hx; omega
  | succ n ih =>
    intro x hx hlen
    rw [writeRow_succ]
    by_cases hxn : x = n
    · subst hxn
      rw [List.getElem?_set_self (by rw [writeRow_length]; omega)]
    · rw [List.getElem?_set_ne (by omega)]
      exact ih x (by omega) (by omega)

theorem writeGrid_succ (w n : Nat) (v : Nat → Nat → Bool) (l : List Bool) :
    writeGrid w (n + 1) v l =
      writeRow w (n * w) (fun x => v x n) (writeGrid w n v l) := by
  unfold writeGrid
  rw [List.range_succ, List.foldl_append]
  rfl

theorem writeGrid_length (w h : Nat) (v : Nat → Nat → Bool) (l : List Bool) :
    (writeGrid w h v l).length = l.length := by
  induction h with
  | zero => rfl
  | succ n ih => rw [writeGrid_succ, writeRow_length, ih]

theorem writeGrid_get (w h : Nat) (v : Nat → Nat → Bool) (l : List Bool) :
    ∀ x y, x < w → y < h → w * h ≤ l.length →
      (writeGrid w h v l)[x + y * w]? = some (v x y) := by
  induction h with
  | zero => intro x y _ hy; omega
  | succ n ih =>
    intro x y hx hy hlen
    rw [writeGrid_succ]
    have hnw : w * n + w ≤ l.length := by
      have : w * (n + 1) = w * n + w := Nat.mul_succ w n
      omega
    by_cases hyn : y = n
    · subst hyn
      exact writeRow_get_in w (y * w) (fun x => v x y) (writeGrid w y v l)
        x hx (by rw [writeGrid_length, Nat.mul_comm y w]; omega)
    · have hylt : y < n := by omega
      have hseg : x + y * w < n * w := by
        have h1 : x + y * w < (y + 1) * w := by rw [Nat.succ_mul]; omega
        have h2 : (y + 1) * w ≤ n * w := Nat.mul_le_mul_right w (by omega)
        omega
      rw [writeRow_get_out w (n * w) _ _ _ (Or.inl hseg)]
      exact ih x y hx hylt (by rw [Nat.mul_succ] at hlen; omega)

theorem Grid.get_step (g : Grid) (hwf : g.wf) (x y : Nat)
    (hx : x < g.w) (hy : y < g.h) :
    (g.step).get x y = lifeRule (g.get x y) (g.count_neighbors x y) := by
  show ((writeGrid g.w g.h _ g.cells)[x + y * g.w]?).getD false = _
  rw [writeGrid_get g.w g.h _ g.cells x y hx hy (le_of_eq hwf.symm)]
  rfl

theorem Grid.get_init (g : Grid) (hwf : g.wf) (r : Nat → Bool) (x y : Nat)
    (hx : x < g.w) (hy : y < g.h) :
    (g.init r).get x y = r (x + y * g.w) := by
  show ((writeGrid g.w g.h _ g.cells)[x + y * g.w]?).getD false = _
  rw [writeGrid_get g.w g.h _ g.cells x y hx hy (le_of_eq hwf.symm)]
  rfl

theorem lifeRule_eq_true (c : Bool) (n : Nat) :
    lifeRule c n = true ↔
      (c = true ∧ (n = 2 ∨ n = 3)) ∨ (c = false ∧ n = 3) := by
  cases c <;> rcases n with _ | _ | _ | _ | n <;> simp [lifeRule]

/-! ### Flat-index helpers -/

theorem flat_lt (w h i j : Nat) (hi : i < w) (hj : j < h) :
    i + j * w < w * h := by
  have h1 : i + j * w < (j + 1) * w := by rw [Nat.succ_mul]; omega
  have h2 : (j + 1) * w ≤ h * w := Nat.mul_le_mul_right w (by omega)
  have h3 : h * w = w * h := Nat.mul_comm h w
  omega

theorem flat_inj (w i i' j j' : Nat) (hi : i < w) (hi' : i' < w) :
    i + j * w = i' + j' * w ↔ i = i' ∧ j = j' := by
  constructor
  · intro h
    have h1 : (i + j * w) % w = i := by
      rw [Nat.add_mul_mod_self_right, Nat.mod_eq_of_lt hi]
    have h2 : (i' + j' * w) % w = i' := by
      rw [Nat.add_mul_mod_self_right, Nat.mod_eq_of_lt hi']
    have hii : i = i' := by rw [← h1, h, h2]
    have hw0 : 0 < w := by omega
    have hjj : j * w = j' * w := by omega
    exact ⟨hii, Nat.eq_of_mul_eq_mul_right hw0 hjj⟩
  · rintro ⟨rfl, rfl⟩; rfl

theorem Grid.w_set (g : Grid) (a b : Nat) (v : Bool) :
    (g.set a b v).w = g.w := rfl

theorem Grid.size_set (g : Grid) (a b : Nat) (v : Bool) :
    (g.set a b v).size = g.size := rfl

theorem Grid.cells_length_set (g : Grid) (a b : Nat) (v : Bool) :
    (g.set a b v).cells.length = g.cells.length := List.length_set ..

theorem Grid.get_set (g : Grid) (a b : Nat) (v : Bool) (i j : Nat)
    (hab : a + b * g.w < g.cells.length) :
    (g.set a b v).get i j =
      if a + b * g.w = i + j * g.w then v else g.get i j := by
  show ((g.cells.set (a + b * g.w) v)[i + j * g.w]?).getD false = _
  rw [List.getElem?_set]
  by_cases h : a + b * g.w = i + j * g.w
  · rw [if_pos h, if_pos h, if_pos hab]; rfl
  · rw [if_neg h, if_neg h]; rfl

/-! ### C1, C4, C5, C9, C10 -/

/-- C1: for every well-formed grid and in-bounds cell `(x, y)`, after one
`step()` the cell is alive iff it was alive with exactly 2 or 3 alive
neighbors in the prior generation, or dead with exactly 3; in all other
cases it is dead. The right-hand side reads only the prior generation
`g` (`step` writes into a fresh buffer, never the one being read). -/
theorem C1_step_rule (g : Grid) (x y : Nat) (hwf : g.wf)
    (hx : x < g.w) (hy : y < g.h) :
    ((g.step).get x y = true ↔
      (g.get x y = true ∧
        (g.count_neighbors x y = 2 ∨ g.count_neighbors x y = 3)) ∨
      (g.get x y = false ∧ g.count_neighbors x y = 3)) := by
  rw [Grid.get_step g hwf x y hx hy, lifeRule_eq_true]

theorem C1_step_rule_witness :
    blinker.wf ∧ 1 < blinker.w ∧ 1 < blinker.h ∧
      ((blinker.step).get 1 1 = true ↔
        (blinker.get 1 1 = true ∧
          (blinker.count_neighbors 1 1 = 2 ∨
            blinker.count_neighbors 1 1 = 3)) ∨
        (blinker.get 1 1 = false ∧ blinker.count_neighbors 1 1 = 3)) :=
  ⟨by decide, by decide, by decide,
    C1_step_rule blinker 1 1 (by decide) (by decide) (by decide)⟩

/-- C4 counterexample: `new` does not return an all-dead grid — it calls
`init()`, which overwrites every cell with a random draw. With a draw
stream that yields `true`, the 1×1 grid returned by `new` has its only
cell alive, refuting the claim at a concrete input. -/
theorem C4_counterexample :
    (Grid.new (1, 1) (fun _ => true)).get 0 0 = true := by decide

/-- C4 amended: the zero-initialized array exists only before the `init()`
call that `new` also performs; immediately after `new(size)` returns,
cell `(x, y)` holds the random draw for it (draw number `x + y * width`),
not necessarily `false`. -/
theorem C4_zero_init (size : Nat × Nat) (r : Nat → Bool) (x y : Nat)
    (hx : x < size.1) (hy : y < size.2) :
    (Grid.alloc size).get x y = false ∧
      (Grid.new size r).get x y = r (x + y * size.1) := by
  constructor
  · show ((List.replicate (size.1 * size.2) false)[x + y * size.1]?).getD
      false = false
    rw [List.getElem?_replicate]
    split <;> rfl
  · exact Grid.get_init (Grid.alloc size)
      (by show (List.replicate (size.1 * size.2) false).length
            = size.1 * size.2
          exact List.length_replicate ..)
      r x y hx hy

theorem C4_zero_init_witness :
    (Grid.alloc (2, 2)).get 0 1 = false ∧
      (Grid.new (2, 2) (fun k => decide (k % 2 = 0))).get 0 1 =
        (fun k => decide (k % 2 = 0)) (0 + 1 * 2) :=
  C4_zero_init (2, 2) (fun k => decide (k % 2 = 0)) 0 1
    (by decide) (by decide)

/-- C5: the invariant `cells.len() == width * height` holds right after
`new(size)` and is preserved by `set`, by `init` (the randomize), and by
`step`; none of these operations changes the stored size. -/
theorem C5_invariant_preserved :
    (∀ (size : Nat × Nat) (r : Nat → Bool),
      (Grid.new size r).cells.length = size.1 * size.2 ∧
        (Grid.new size r).size = size) ∧
    (∀ (g : Grid) (x y : Nat) (v : Bool), g.wf →
      (g.set x y v).cells.length = g.w * g.h ∧
        (g.set x y v).size = g.size) ∧
    (∀ (g : Grid) (r : Nat → Bool), g.wf →
      (g.init r).cells.length = g.w * g.h ∧ (g.init r).size = g.size) ∧
    (∀ g : Grid, g.wf →
      g.step.cells.length = g.w * g.h ∧ g.step.size = g.size) := by
  refine ⟨fun size r => ⟨?_, rfl⟩, fun g x y v hwf => ⟨?_, rfl⟩,
    fun g r hwf => ⟨?_, rfl⟩, fun g hwf => ⟨?_, rfl⟩⟩
  · show (writeGrid _ _ _ _).length = _
    rw [writeGrid_length]
    show (List.replicate (size.1 * size.2) false).length = size.1 * size.2
    exact List.length_replicate ..
  · show (g.cells.set _ _).length = _
    rw [List.length_set]; exact hwf
  · show (writeGrid _ _ _ _).length = _
    rw [writeGrid_length]; exact hwf
  · show (writeGrid _ _ _ _).length = _
    rw [writeGrid_length]; exact hwf

theorem C5_invariant_preserved_witness :
    blinker.wf ∧ blinker.step.cells.length = blinker.w * blinker.h ∧
      blinker.step.size = blinker.size :=
  ⟨by decide, (C5_invariant_preserved.2.2.2 blinker (by decide)).1,
    (C5_invariant_preserved.2.2.2 blinker (by decide)).2⟩

/-- A second grid built from the same literal data as `blinker`, to state
determinism over two separately constructed grids. -/
def blinkerCopy : Grid :=
  ⟨(3, 3), [false, true, false, false, true, false, false, true, false]⟩

/-- C9: `step()` is deterministic — two grids with identical dimensions
and identical cell contents step to identical dimensions and identical
cell contents; the embedding of `step` takes no random or other hidden
input. -/
theorem C9_step_deterministic (g1 g2 : Grid) (hsize : g1.size = g2.size)
    (hcells : g1.cells = g2.cells) :
    (g1.step).size = (g2.step).size ∧
      (g1.step).cells = (g2.step).cells := by
  obtain ⟨s1, c1⟩ := g1
  obtain ⟨s2, c2⟩ := g2
  cases hsize
  cases hcells
  exact ⟨rfl, rfl⟩

theorem C9_step_deterministic_witness :
    (blinker.step).size = (blinkerCopy.step).size ∧
      (blinker.step).cells = (blinkerCopy.step).cells :=
  C9_step_deterministic blinker blinkerCopy (by decide) (by decide)

/-- C10: `get` and `set` check bounds only on the flattened index
`x + y * width`. When that index is in range of the flat array, both
succeed — even with `x ≥ width` — and access the cell whose in-bounds
coordinates are `(idx % width, idx / width)`, which for `x ≥ width` lies
in a row strictly below `y`; they fail exactly when
`x + y * width ≥ width * height`. -/
theorem C10_flat_index_bounds (g : Grid) (hwf : g.wf) (hw : 0 < g.w)
    (x y : Nat) (v : Bool) :
    (x + y * g.w < g.w * g.h →
      (∃ b, g.getc x y = some b) ∧
      g.getc x y =
        g.getc ((x + y * g.w) % g.w) ((x + y * g.w) / g.w) ∧
      (x + y * g.w) % g.w < g.w ∧
      (g.w ≤ x → y < (x + y * g.w) / g.w) ∧
      g.setc x y v =
        some (g.set ((x + y * g.w) % g.w) ((x + y * g.w) / g.w) v)) ∧
    (g.w * g.h ≤ x + y * g.w →
      g.getc x y = none ∧ g.setc x y v = none) := by
  have hflat : (x + y * g.w) % g.w + (x + y * g.w) / g.w * g.w
      = x + y * g.w := Nat.mod_add_div' (x + y * g.w) g.w
  constructor
  · intro hlt
    have hlen : x + y * g.w < g.cells.length := by rw [hwf]; exact hlt
    refine ⟨⟨g.cells.get ⟨x + y * g.w, hlen⟩, List.getElem?_eq_getElem hlen⟩,
      ?_, Nat.mod_lt _ hw, ?_, ?_⟩
    · show g.cells[x + y * g.w]? = g.cells[_ + _ * g.w]?
      rw [hflat]
    · intro hge
      have h1 : (y + 1) * g.w ≤ x + y * g.w := by rw [Nat.succ_mul]; omega
      have h2 : y + 1 ≤ (x + y * g.w) / g.w :=
        (Nat.le_div_iff_mul_le hw).mpr h1
      omega
    · show (if x + y * g.w < g.cells.length then some (g.set x y v)
        else none) = _
      rw [if_pos hlen]
      show some (⟨g.size, g.cells.set (x + y * g.w) v⟩ : Grid) =
        some (⟨g.size, g.cells.set (_ + _ * g.w) v⟩ : Grid)
      rw [hflat]
  · intro hge
    have hlen : g.cells.length ≤ x + y * g.w := by rw [hwf]; exact hge
    exact ⟨List.getElem?_eq_none hlen,
      if_neg (by omega)⟩

theorem C10_flat_index_bounds_witness :
    blinker.wf ∧ 0 < blinker.w ∧
      blinker.getc 4 0 =
        blinker.getc ((4 + 0 * blinker.w) % blinker.w)
          ((4 + 0 * blinker.w) / blinker.w) :=
  ⟨by decide, by decide,
    ((C10_flat_index_bounds blinker (by decide) (by decide) 4 0
      true).1 (by decide)).2.1⟩

/-! ### C8: the mouse-paint handler -/

theorem paint_eq (g : Grid) (x y : Nat) :
    g.paint x y =
      (((((g.set (x * 2 + 0) (y * 3 + 0) true).set
        (x * 2 + 1) (y * 3 + 0) true).set
        (x * 2 + 0) (y * 3 + 1) true).set
        (x * 2 + 1) (y * 3 + 1) true).set
        (x * 2 + 0) (y * 3 + 2) true).set
        (x * 2 + 1) (y * 3 + 2) true := rfl

/-- C8: painting at terminal cell `(x, y)` (left button down) sets exactly
the six sub-cells `(x*2 + dx, y*3 + dy)`, `dx < 2`, `dy < 3`, to alive and
leaves every other in-bounds cell unchanged; no cell is ever set to dead,
and the grid is not stepped (the effect is fully described by the six
`set(_, _, true)` writes). -/
theorem C8_paint_effect (g : Grid) (x y : Nat) (hwf : g.wf)
    (hx : x * 2 + 1 < g.w) (hy : y * 3 + 2 < g.h) :
    (∀ dx dy, dx < 2 → dy < 3 →
      (g.paint x y).get (x * 2 + dx) (y * 3 + dy) = true) ∧
    (∀ i j, i < g.w → j < g.h →
      ¬(x * 2 ≤ i ∧ i < x * 2 + 2 ∧ y * 3 ≤ j ∧ j < y * 3 + 3) →
      (g.paint x y).get i j = g.get i j) := by
  have hb : ∀ a b : Nat, a < g.w → b < g.h →
      a + b * g.w < g.cells.length := by
    intro a b ha hbb; rw [hwf]; exact flat_lt _ _ _ _ ha hbb
  constructor
  · intro dx dy hdx hdy
    rw [paint_eq, Grid.get_set, Grid.get_set, Grid.get_set, Grid.get_set,
      Grid.get_set, Grid.get_set]
    all_goals try
      (first
        | exact hb _ _ (by omega) (by omega)
        | (simp only [Grid.w_set, Grid.cells_length_set]
           exact hb _ _ (by omega) (by omega)))
    simp only [Grid.w_set]
    interval_cases dx <;> interval_cases dy <;>
      split_ifs <;> first | rfl | (exfalso; omega)
  · intro i j hi hj hblock
    rw [paint_eq, Grid.get_set, Grid.get_set, Grid.get_set, Grid.get_set,
      Grid.get_set, Grid.get_set]
    all_goals try
      (first
        | exact hb _ _ (by omega) (by omega)
        | (simp only [Grid.w_set, Grid.cells_length_set]
           exact hb _ _ (by omega) (by omega)))
    simp only [Grid.w_set]
    split_ifs with h1 h2 h3 h4 h5 h6
    · exfalso
      have h' := (flat_inj g.w (x * 2 + 1) i (y * 3 + 2) j
        (by omega) hi).mp h1
      omega
    · exfalso
      have h' := (flat_inj g.w (x * 2 + 0) i (y * 3 + 2) j
        (by omega) hi).mp h2
      omega
    · exfalso
      have h' := (flat_inj g.w (x * 2 + 1) i (y * 3 + 1) j
        (by omega) hi).mp h3
      omega
    · exfalso
      have h' := (flat_inj g.w (x * 2 + 0) i (y * 3 + 1) j
        (by omega) hi).mp h4
      omega
    · exfalso
      have h' := (flat_inj g.w (x * 2 + 1) i (y * 3 + 0) j
        (by omega) hi).mp h5
      omega
    · exfalso
      have h' := (flat_inj g.w (x * 2 + 0) i (y * 3 + 0) j
        (by omega) hi).mp h6
      omega
    · rfl

theorem C8_paint_effect_witness :
    (blinker.paint 0 0).get (0 * 2 + 1) (0 * 3 + 2) = true ∧
      (blinker.paint 0 0).get 2 0 = blinker.get 2 0 :=
  ⟨(C8_paint_effect blinker 0 0 (by decide) (by decide) (by decide)).1
      1 2 (by decide) (by decide),
    (C8_paint_effect blinker 0 0 (by decide) (by decide) (by decide)).2
      2 0 (by decide) (by decide) (by decide)⟩

/-! ### C2, C6, C7: the renderer -/

/-- C2 failing input, evaluated: on the 2×3 grid whose only alive cell is
`(1, 0)`, the block handed to the glyph packer for block position
`(col, row) = (0, 0)` has element `dx*3 + dy = 1*3 + 0 = 3` equal to
`false`, while the grid cell `(0*2 + 1, 0*3 + 0) = (1, 0)` is `true`: the
code stores cell `(x, y)` at block element `(y % 3) + (x % 2)`, under
which `(1, 0)` lands on element 1 and is then overwritten by the dead
cell `(0, 1)`, and elements 4 and 5 of the 6-element block are never
written at all. -/
theorem C2_block_order_bug :
    oneAlive.get (0 * 2 + 1) (0 * 3 + 0) = true ∧
      renderGroups oneAlive 0 0 (1 * 3 + 0) = false ∧
      renderGroups oneAlive 0 0 4 = false ∧
      renderGroups oneAlive 0 0 5 = false := by decide

/-- C6 failing input, evaluated: rendering a 4×6-sub-cell grid on a
surface of character dimensions `(1, 1)` (which differ from
`(4/2, 6/3) = (2, 2)`, so the resize branch runs) leaves the surface at
dimensions `(4, 6)` — `render` calls `resize(game.size.0, game.size.1)`
with the full sub-cell size — not at the `(2, 2)` the resize guard
compares against. -/
theorem C6_resize_wrong_dims :
    dimsAfter (1, 1) (renderOps (1, 1) dead46) = (4, 6) ∧
      dead46.w / 2 = 2 ∧ dead46.h / 3 = 2 ∧
      ((4, 6) : Nat × Nat) ≠ (2, 2) := by decide

/-- C7 counterexample: the operation trace of a single `render` call does
contain a flush — `render` ends with `self.screen.flush().ok()` — so
`render` does not merely enqueue changes. -/
theorem C7_counterexample :
    SOp.flush ∈ renderOps (1, 1) blinker := by decide

/-- C7 amended: a single `render` call enqueues its changes (the
conditional resize, the cursor move to the origin, and one text run per
block row) and then flushes exactly once, as its final surface
operation (ignoring the flush result); the control loop flushes again
after `render` returns. -/
theorem C7_render_flushes_once_last (dims : Nat × Nat) (g : Grid) :
    (renderOps dims g).getLast? = some SOp.flush ∧
      ∀ op ∈ (renderOps dims g).dropLast, op ≠ SOp.flush := by
  constructor
  · exact List.getLast?_concat _
  · intro op hop
    simp only [renderOps] at hop
    rw [List.dropLast_concat] at hop
    rcases List.mem_append.mp hop with h | h
    · rcases List.mem_append.mp h with h' | h'
      · split at h'
        · rw [List.mem_singleton] at h'
          subst h'
          simp
        · cases h'
      · rw [List.mem_singleton] at h'
        subst h'
        simp
    · rcases List.mem_map.mp h with ⟨a, _, rfl⟩
      simp

theorem C7_render_flushes_once_last_witness :
    SOp.cursorAbs 0 0 ∈ (renderOps (1, 1) blinker).dropLast ∧
      SOp.cursorAbs 0 0 ≠ SOp.flush :=
  ⟨by decide, (C7_render_flushes_once_last (1, 1) blinker).2
    (SOp.cursorAbs 0 0) (by decide)⟩

/-! ### C3: neighbor counting -/

theorem count_fold_inner (g : Grid) (x y i : Nat) :
    ∀ (jl : List Nat) (c : Nat),
      jl.foldl (fun count j =>
        if i = x ∧ j = y then count
        else if g.get i j then count + 1 else count) c
      = c + jl.countP
          (fun j => decide (¬(i = x ∧ j = y) ∧ g.get i j = true)) := by
  intro jl
  induction jl with
  | nil => intro c; simp
  | cons a jl ih =>
    intro c
    rw [List.foldl_cons, ih, List.countP_cons]
    by_cases h1 : i = x ∧ a = y
    · simp [h1]
    · by_cases h2 : g.get i a = true
      · simp only [h2]
        simp [h1, h2]
        omega
      · simp [h1, h2]

theorem count_fold_outer (K : Nat → Nat) :
    ∀ (il : List Nat) (c : Nat),
      il.foldl (fun c i => c + K i) c = c + (il.map K).sum := by
  intro il
  induction il with
  | nil => intro c; simp
  | cons a il ih =>
    intro c
    rw [List.foldl_cons, ih, List.map_cons, List.sum_cons]
    omega

theorem countP_range (p : Nat → Bool) (n : Nat) :
    (List.range n).countP p
      = ∑ t ∈ Finset.range n, (if p t = true then 1 else 0) := by
  induction n with
  | zero => simp
  | succ m ih =>
    rw [List.range_succ, List.countP_append, ih, Finset.sum_range_succ]
    simp [List.countP_cons]

theorem sum_map_range (f : Nat → Nat) (n : Nat) :
    ((List.range n).map f).sum = ∑ t ∈ Finset.range n, f t := by
  induction n with
  | zero => simp
  | succ m ih =>
    rw [List.range_succ, List.map_append, List.sum_append, ih,
      Finset.sum_range_succ]
    simp

theorem countP_rangeIncl (p : Nat → Bool) (a b : Nat) :
    (rangeIncl a b).countP p
      = ∑ j ∈ Finset.Icc a b, (if p j = true then 1 else 0) := by
  rw [rangeIncl, List.countP_map, countP_range, ← Nat.Ico_succ_right,
    Finset.sum_Ico_eq_sum_range]
  rfl

theorem sum_map_rangeIncl (K : Nat → Nat) (a b : Nat) :
    ((rangeIncl a b).map K).sum = ∑ i ∈ Finset.Icc a b, K i := by
  rw [rangeIncl, List.map_map, sum_map_range, ← Nat.Ico_succ_right,
    Finset.sum_Ico_eq_sum_range]
  rfl

theorem count_neighbors_eq_sum (g : Grid) (x y : Nat) :
    g.count_neighbors x y
      = ∑ i ∈ Finset.Icc (x - 1) (min (x + 1) (g.w - 1)),
          ∑ j ∈ Finset.Icc (y - 1) (min (y + 1) (g.h - 1)),
            (if ¬(i = x ∧ j = y) ∧ g.get i j = true then 1 else 0) := by
  unfold Grid.count_neighbors
  simp only [count_fold_inner]
  rw [count_fold_outer, Nat.zero_add, sum_map_rangeIncl]
  apply Finset.sum_congr rfl
  intro i _
  rw [countP_rangeIncl]
  apply Finset.sum_congr rfl
  intro j _
  simp only [decide_eq_true_eq]

theorem mooreCount_eq_sum (g : Grid) (x y : Nat) :
    mooreCount g x y
      = ∑ i ∈ Finset.range g.w, ∑ j ∈ Finset.range g.h,
          (if (i, j) ≠ (x, y) ∧ ((i : Int) - (x : Int)).natAbs ≤ 1 ∧
            ((j : Int) - (y : Int)).natAbs ≤ 1 ∧ g.get i j = true
          then 1 else 0) := by
  rw [mooreCount, Finset.card_filter, Finset.sum_product]

/-- C3: for every grid with positive dimensions and every in-bounds
`(x, y)`, `count_neighbors(x, y)` equals the number of coordinates
`(i, j)` with `|i - x| ≤ 1`, `|j - y| ≤ 1`, `(i, j) ≠ (x, y)`,
`0 ≤ i < width`, `0 ≤ j < height` whose cell is alive: the center is
never included, no out-of-bounds coordinate is examined, and each
in-bounds neighbor is counted at most once (the count is the cardinality
of a set of coordinates). -/
theorem C3_count_neighbors (g : Grid) (x y : Nat) (hw : 0 < g.w)
    (hh : 0 < g.h) (hx : x < g.w) (hy : y < g.h) :
    g.count_neighbors x y = mooreCount g x y := by
  rw [count_neighbors_eq_sum, mooreCount_eq_sum]
  have hsubJ : Finset.Icc (y - 1) (min (y + 1) (g.h - 1))
      ⊆ Finset.range g.h := by
    intro j hj
    rw [Finset.mem_Icc] at hj
    rw [Finset.mem_range]
    omega
  have hsubI : Finset.Icc (x - 1) (min (x + 1) (g.w - 1))
      ⊆ Finset.range g.w := by
    intro i hi
    rw [Finset.mem_Icc] at hi
    rw [Finset.mem_range]
    omega
  have hinner : ∀ i ∈ Finset.Icc (x - 1) (min (x + 1) (g.w - 1)),
      (∑ j ∈ Finset.Icc (y - 1) (min (y + 1) (g.h - 1)),
        if ¬(i = x ∧ j = y) ∧ g.get i j = true then 1 else 0)
      = ∑ j ∈ Finset.range g.h,
          if (i, j) ≠ (x, y) ∧ ((i : Int) - (x : Int)).natAbs ≤ 1 ∧
            ((j : Int) - (y : Int)).natAbs ≤ 1 ∧ g.get i j = true
          then 1 else 0 := by
    intro i hiI
    rw [Finset.mem_Icc] at hiI
    refine Eq.trans (Finset.sum_congr rfl ?_) (Finset.sum_subset hsubJ ?_)
    · intro j hjI
      rw [Finset.mem_Icc] at hjI
      apply if_congr ?_ rfl rfl
      simp only [ne_eq, Prod.mk.injEq]
      constructor
      · rintro ⟨hne, hget⟩
        exact ⟨hne, by omega, by omega, hget⟩
      · rintro ⟨hne, -, -, hget⟩
        exact ⟨hne, hget⟩
    · intro j hjR hjN
      rw [Finset.mem_range] at hjR
      rw [Finset.mem_Icc] at hjN
      rw [if_neg]
      rintro ⟨-, -, habs, -⟩
      omega
  refine Eq.trans (Finset.sum_congr rfl hinner) (Finset.sum_subset hsubI ?_)
  intro i hiR hiN
  rw [Finset.mem_range] at hiR
  rw [Finset.mem_Icc] at hiN
  apply Finset.sum_eq_zero
  intro j _
  rw [if_neg]
  rintro ⟨-, habs, -, -⟩
  omega

theorem C3_count_neighbors_witness :
    0 < blinker.w ∧ 0 < blinker.h ∧ 1 < blinker.w ∧ 1 < blinker.h ∧
      blinker.count_neighbors 1 1 = mooreCount blinker 1 1 :=
  ⟨by decide, by decide, by decide, by decide,
    C3_count_neighbors blinker 1 1 (by decide) (by decide) (by decide)
      (by decide)⟩
